import Mathlib

/-!
Verification of the Polymarket box-spread market maker.

This file gives a shallow embedding of the repository's pure core:
the price policy (`src/config.py`), the inventory ledger and order-book
accessors (`src/models.py`), the fill-handling and flattening logic of the
strategy engine (`src/strategy_engine.py`), and the fill de-duplication of
the user channel (`src/user_channel.py`).  Real-valued quantities of the
source are modelled exactly over `ℚ`; wall-clock timestamps are abstract
naturals threaded explicitly.
-/

namespace VolaScalping

/-- Order side, from `models.Side`. -/
inductive Side where
  | BUY
  | SELL
deriving DecidableEq, Repr

/-- Binary market outcome, from `models.Outcome`. -/
inductive Outcome where
  | YES
  | NO
deriving DecidableEq, Repr

/-- Strategy mode, from `models.StrategyMode`. -/
inductive StrategyMode where
  | OPEN
  | HEDGE_YES
  | HEDGE_NO
  | EMERGENCY
  | COOLDOWN
  | STOPPED
deriving DecidableEq, Repr

/-- The configuration fields of `config.Config` that the strategy logic reads.
Network and operational fields are omitted. -/
structure Config where
  profit_margin : ℚ
  c_target : ℚ
  max_exposure : ℚ
  trap_order_size : ℚ
  min_order_size : ℚ
  range_min : ℚ
  range_max : ℚ
  token_id_yes : String
  token_id_no : String
deriving DecidableEq, Repr

/-- The defaults assigned by `config.load_config` when no environment
overrides are present: `PROFIT_MARGIN=0.02`, `c_target = 1 - 0.02`,
`MAX_EXPOSURE=100`, `TRAP_ORDER_SIZE=10`, `MIN_ORDER_SIZE=1`,
`RANGE_MIN=0.40`, `RANGE_MAX=0.60`, empty token ids. -/
def default_config : Config :=
  { profit_margin := 2/100
    c_target := 1 - 2/100
    max_exposure := 100
    trap_order_size := 10
    min_order_size := 1
    range_min := 40/100
    range_max := 60/100
    token_id_yes := ""
    token_id_no := "" }

/-- Python's `round(x, 2)`: round to the nearest 0.01 tick (ties are
immaterial to every statement below). -/
def roundTick (x : ℚ) : ℚ := (round (x * 100) : ℤ) / 100

namespace Config

/-- `Config.compute_trap_price` (config.py lines 75-105): no quote if either
ask is outside `[range_min, range_max]`; otherwise the candidate price is
`c_target - opposing_ask`, no quote if that is `≤ 0.01` or `> 0.99`, else
the candidate rounded to the tick. -/
def compute_trap_price (cfg : Config) (opposing_ask own_ask : ℚ) : Option ℚ :=
  if own_ask < cfg.range_min ∨ own_ask > cfg.range_max ∨
      opposing_ask < cfg.range_min ∨ opposing_ask > cfg.range_max then
    none
  else
    let trap_price := cfg.c_target - opposing_ask
    if trap_price ≤ 1/100 ∨ trap_price > 99/100 then
      none
    else
      some (roundTick trap_price)

/-- `Config.compute_hedge_price` (config.py lines 107-120):
`round(max(0.01, min(0.99, c_target - own_vwap)), 2)`. -/
def compute_hedge_price (cfg : Config) (own_vwap : ℚ) : ℚ :=
  roundTick (max (1/100) (min (99/100) (cfg.c_target - own_vwap)))

end Config

/-- Single order-book level, from `models.OrderBookLevel`. -/
structure OrderBookLevel where
  price : ℚ
  size : ℚ
deriving DecidableEq, Repr

/-- Order-book snapshot for one outcome, from `models.OrderBook`
(timestamp omitted). -/
structure OrderBook where
  asset_id : String
  bids : List OrderBookLevel
  asks : List OrderBookLevel
deriving DecidableEq, Repr

namespace OrderBook

/-- `OrderBook.best_bid`: `None` on an empty bid list, else
`max(level.price for level in bids)`. -/
def best_bid (b : OrderBook) : Option ℚ :=
  match b.bids.map OrderBookLevel.price with
  | [] => none
  | p :: ps => some (ps.foldl max p)

/-- `OrderBook.best_ask`: `None` on an empty ask list, else
`min(level.price for level in asks)`. -/
def best_ask (b : OrderBook) : Option ℚ :=
  match b.asks.map OrderBookLevel.price with
  | [] => none
  | p :: ps => some (ps.foldl min p)

/-- `OrderBook.mid_price`: `None` if either side is missing, else the
average of best bid and best ask. -/
def mid_price (b : OrderBook) : Option ℚ :=
  match b.best_bid, b.best_ask with
  | some bb, some ba => some ((bb + ba) / 2)
  | _, _ => none

/-- `OrderBook.spread`: `None` if either side is missing, else
`best_ask - best_bid`. -/
def spread (b : OrderBook) : Option ℚ :=
  match b.best_bid, b.best_ask with
  | some bb, some ba => some (ba - bb)
  | _, _ => none

end OrderBook

/-- Portfolio inventory state, from `models.InventoryState`.  Timestamps are
abstract instants (`ℕ`). -/
@[ext]
structure InventoryState where
  q_yes : ℚ := 0
  c_yes : ℚ := 0
  q_no : ℚ := 0
  c_no : ℚ := 0
  locked_profit : ℚ := 0
  locked_quantity : ℚ := 0
  completed_rounds : ℕ := 0
  total_trades : ℕ := 0
  total_volume : ℚ := 0
  created_at : ℕ := 0
  updated_at : ℕ := 0
deriving DecidableEq, Repr

namespace InventoryState

/-- `InventoryState.mu_yes`: VWAP of the YES position, 0 on an empty side. -/
def mu_yes (s : InventoryState) : ℚ :=
  if s.q_yes = 0 then 0 else s.c_yes / s.q_yes

/-- `InventoryState.mu_no`: VWAP of the NO position, 0 on an empty side. -/
def mu_no (s : InventoryState) : ℚ :=
  if s.q_no = 0 then 0 else s.c_no / s.q_no

/-- `InventoryState.delta_q`: imbalance `Q_yes - Q_no`. -/
def delta_q (s : InventoryState) : ℚ := s.q_yes - s.q_no

/-- `InventoryState.combined_vwap`: `mu_yes + mu_no`. -/
def combined_vwap (s : InventoryState) : ℚ := s.mu_yes + s.mu_no

/-- `InventoryState.record_fill` (models.py lines 199-231).  The
`datetime.now()` written to `updated_at` is passed explicitly as `now`. -/
def record_fill (s : InventoryState) (outcome : Outcome) (side : Side)
    (price size : ℚ) (now : ℕ) : InventoryState :=
  let s₀ := { s with
    total_trades := s.total_trades + 1
    total_volume := s.total_volume + price * size
    updated_at := now }
  match outcome, side with
  | Outcome.YES, Side.BUY =>
      { s₀ with c_yes := s₀.c_yes + price * size, q_yes := s₀.q_yes + size }
  | Outcome.YES, Side.SELL =>
      if s₀.q_yes > 0 then
        { s₀ with
          c_yes := s₀.c_yes - s₀.c_yes / s₀.q_yes * min size s₀.q_yes
          q_yes := max 0 (s₀.q_yes - size) }
      else s₀
  | Outcome.NO, Side.BUY =>
      { s₀ with c_no := s₀.c_no + price * size, q_no := s₀.q_no + size }
  | Outcome.NO, Side.SELL =>
      if s₀.q_no > 0 then
        { s₀ with
          c_no := s₀.c_no - s₀.c_no / s₀.q_no * min size s₀.q_no
          q_no := max 0 (s₀.q_no - size) }
      else s₀

/-- `InventoryState.lock_profit` (models.py lines 233-250).  The `c_target`
argument is accepted but, as in the source, never read: the profit per share
is `1 - combined_vwap`. -/
def lock_profit (s : InventoryState) (c_target : ℚ) : InventoryState :=
  if min s.q_yes s.q_no ≤ s.locked_quantity then s
  else
    if 1 - s.combined_vwap > 0 then
      { s with
        locked_profit :=
          s.locked_profit + (min s.q_yes s.q_no - s.locked_quantity) * (1 - s.combined_vwap)
        locked_quantity := min s.q_yes s.q_no
        completed_rounds := s.completed_rounds + 1 }
    else s

end InventoryState

/-- The JSON dictionary produced by `InventoryState.to_dict` / consumed by
`InventoryState.from_dict`.  Each key that `from_dict` reads with a default
is an `Option`; `completed_rounds` has no key at all in the source. -/
structure InventoryDict where
  q_yes : Option ℚ
  c_yes : Option ℚ
  q_no : Option ℚ
  c_no : Option ℚ
  locked_profit : Option ℚ
  locked_quantity : Option ℚ
  total_trades : Option ℕ
  total_volume : Option ℚ
  created_at : Option ℕ
  updated_at : Option ℕ
deriving DecidableEq, Repr

namespace InventoryState

/-- `InventoryState.to_dict` (models.py lines 252-265): serialises the ten
listed keys — and only those; `completed_rounds` is not written. -/
def to_dict (s : InventoryState) : InventoryDict :=
  { q_yes := some s.q_yes
    c_yes := some s.c_yes
    q_no := some s.q_no
    c_no := some s.c_no
    locked_profit := some s.locked_profit
    locked_quantity := some s.locked_quantity
    total_trades := some s.total_trades
    total_volume := some s.total_volume
    created_at := some s.created_at
    updated_at := some s.updated_at }

/-- `InventoryState.from_dict` (models.py lines 267-281): every field is
read with `data.get(key, default)`; `completed_rounds` is never read, so the
dataclass default `0` applies.  The `datetime.now()` fallback for a missing
timestamp is passed explicitly as `now`. -/
def from_dict (d : InventoryDict) (now : ℕ) : InventoryState :=
  { q_yes := d.q_yes.getD 0
    c_yes := d.c_yes.getD 0
    q_no := d.q_no.getD 0
    c_no := d.c_no.getD 0
    locked_profit := d.locked_profit.getD 0
    locked_quantity := d.locked_quantity.getD 0
    completed_rounds := 0
    total_trades := d.total_trades.getD 0
    total_volume := d.total_volume.getD 0
    created_at := d.created_at.getD now
    updated_at := d.updated_at.getD now }

end InventoryState

/-- A single ledger mutation: the only two methods that write the ledger's
accounting fields. -/
inductive LedgerOp where
  | fill (outcome : Outcome) (side : Side) (price size : ℚ) (now : ℕ)
  | lock (c_target : ℚ)
deriving DecidableEq, Repr

/-- Apply one ledger operation. -/
def applyOp (s : InventoryState) : LedgerOp → InventoryState
  | LedgerOp.fill outcome side price size now => s.record_fill outcome side price size now
  | LedgerOp.lock c_target => s.lock_profit c_target

/-- Apply a sequence of ledger operations in order. -/
def applyOps (s : InventoryState) (ops : List LedgerOp) : InventoryState :=
  ops.foldl applyOp s

/-- A fill with non-negative price and size; `lock` is always legal. -/
def LedgerOp.legal : LedgerOp → Prop
  | LedgerOp.fill _ _ price size _ => 0 ≤ price ∧ 0 ≤ size
  | LedgerOp.lock _ => True

instance : DecidablePred LedgerOp.legal := fun op => by
  cases op <;> simp [LedgerOp.legal] <;> infer_instance

/-- The op is not a SELL fill. -/
def LedgerOp.notSell : LedgerOp → Prop
  | LedgerOp.fill _ side _ _ _ => side ≠ Side.SELL
  | LedgerOp.lock _ => True

instance : DecidablePred LedgerOp.notSell := fun op => by
  cases op <;> simp [LedgerOp.notSell] <;> infer_instance

/-- The spec's per-side accounting invariants: non-negative quantities and
cost bases, and an empty side has zero cost basis. -/
def LedgerInv (s : InventoryState) : Prop :=
  0 ≤ s.q_yes ∧ 0 ≤ s.c_yes ∧ 0 ≤ s.q_no ∧ 0 ≤ s.c_no ∧
    (s.q_yes = 0 → s.c_yes = 0) ∧ (s.q_no = 0 → s.c_no = 0)

instance : DecidablePred LedgerInv := fun s => by
  unfold LedgerInv; infer_instance

/-- The spec's locked-quantity bound. -/
def LockedInv (s : InventoryState) : Prop :=
  s.locked_quantity ≤ min s.q_yes s.q_no

instance : DecidablePred LockedInv := fun s => by
  unfold LockedInv; infer_instance

/-- A live order, from `models.LiveOrder` (status and timestamps omitted:
the fill-handling logic modelled below reads only these fields). -/
structure LiveOrder where
  order_id : String
  outcome : Outcome
  side : Side
  price : ℚ
  size : ℚ
deriving DecidableEq, Repr

/-- The part of `models.StrategyState` (plus the engine's intent map
`StrategyEngine._order_outcome`) that `on_fill` reads and writes.  The
intent map is an association list keyed by order id. -/
structure EngineState where
  mode : StrategyMode
  inventory : InventoryState
  trap_order_yes : Option LiveOrder
  trap_order_no : Option LiveOrder
  hedge_order : Option LiveOrder
  order_outcome : List (String × Outcome)
deriving DecidableEq, Repr

/-- Python truthiness test `slot and slot.order_id == order_id`. -/
def slotMatches (slot : Option LiveOrder) (order_id : String) : Bool :=
  match slot with
  | some o => o.order_id = order_id
  | none => false

/-- Order classification inside `StrategyEngine.on_fill`. -/
inductive FillType where
  | TRAP_YES
  | TRAP_NO
  | HEDGE
  | UNKNOWN
deriving DecidableEq, Repr

/-- The `if/elif` classification chain of `StrategyEngine.on_fill`
(strategy_engine.py lines 542-554). -/
def classifyFill (st : EngineState) (order_id : String) : FillType :=
  if slotMatches st.trap_order_yes order_id then FillType.TRAP_YES
  else if slotMatches st.trap_order_no order_id then FillType.TRAP_NO
  else if slotMatches st.hedge_order order_id then FillType.HEDGE
  else FillType.UNKNOWN

/-- `self._order_outcome.get(order_id)`. -/
def lookupIntent (m : List (String × Outcome)) (order_id : String) : Option Outcome :=
  (m.find? (fun e => e.1 = order_id)).map Prod.snd

/-- `StrategyEngine.on_fill` (strategy_engine.py lines 529-615), as a state
transformer (logging and the asynchronous step re-entry are effect-free on
this state).  An UNKNOWN id returns the state unchanged; otherwise the
locally remembered intent overrides the reported outcome when they differ,
the fill is recorded as a BUY, the matching slot is cleared, the intent
entry is dropped, and a hedge fill that leaves `|ΔQ| < 0.5` locks profit. -/
def on_fill (cfg : Config) (st : EngineState) (order_id : String)
    (outcome : Outcome) (price size : ℚ) (now : ℕ) : EngineState :=
  let order_type := classifyFill st order_id
  if order_type = FillType.UNKNOWN then st
  else
    let outcome' := match lookupIntent st.order_outcome order_id with
      | some mapped => mapped
      | none => outcome
    let inv := st.inventory.record_fill outcome' Side.BUY price size now
    let st' := { st with
      inventory := inv
      trap_order_yes :=
        if order_type = FillType.TRAP_YES then none else st.trap_order_yes
      trap_order_no :=
        if order_type = FillType.TRAP_NO then none else st.trap_order_no
      hedge_order :=
        if order_type = FillType.HEDGE then none else st.hedge_order
      order_outcome := st.order_outcome.filter (fun e => e.1 ≠ order_id) }
    if order_type = FillType.HEDGE ∧ |inv.delta_q| < 1/2 then
      { st' with inventory := inv.lock_profit cfg.c_target }
    else st'

/-- `MIN_HEDGE_THRESHOLD` hard-coded in `StrategyEngine._step`
(strategy_engine.py line 277): below this imbalance the engine stays in
OPEN mode. -/
def MIN_HEDGE_THRESHOLD : ℚ := 5/2

/-- `MIN_POLYMARKET_SIZE` hard-coded in `StrategyEngine._mode_hedge`
(strategy_engine.py line 399). -/
def MIN_POLYMARKET_SIZE : ℚ := 5

/-- The mode dispatch at the end of `StrategyEngine._step`
(strategy_engine.py lines 279-295). -/
inductive StepAction where
  | open_traps
  | hedge (long_side : Outcome)
deriving DecidableEq, Repr

/-- `_step`'s imbalance dispatch: below `MIN_HEDGE_THRESHOLD` the engine
accepts the imbalance and places traps; otherwise it hedges the long side. -/
def step_decision (inv : InventoryState) : StepAction :=
  if |inv.delta_q| < MIN_HEDGE_THRESHOLD then StepAction.open_traps
  else if inv.delta_q > 0 then StepAction.hedge Outcome.YES
  else StepAction.hedge Outcome.NO

/-- The hedge order size computed by `StrategyEngine._mode_hedge`
(strategy_engine.py lines 394-405): `qty = |ΔQ|`, raised to
`MIN_POLYMARKET_SIZE` when below it. -/
def hedge_qty (inv : InventoryState) : ℚ :=
  if |inv.delta_q| < MIN_POLYMARKET_SIZE then MIN_POLYMARKET_SIZE
  else |inv.delta_q|

/-- The inventory effect of `StrategyEngine.flatten_position`
(strategy_engine.py lines 115-181).  `sell_succeeds` abstracts whether
`place_market_order` returned an order.  With `|ΔQ| < 0.01` nothing
happens; otherwise on success the long side's quantity is reduced by
the sold size directly (`inv.q_yes -= size` / `inv.q_no -= size`),
without any call to `record_fill`. -/
def flatten_inventory (inv : InventoryState) (sell_succeeds : Bool) : InventoryState :=
  if |inv.delta_q| < 1/100 then inv
  else if inv.delta_q > 0 then
    if sell_succeeds then { inv with q_yes := inv.q_yes - inv.delta_q } else inv
  else
    if sell_succeeds then { inv with q_no := inv.q_no - |inv.delta_q| } else inv

/-- A logical fill emitted by the user channel to the engine callback
`(order_id, outcome, price, size)`. -/
structure Fill where
  order_id : String
  outcome : Outcome
  price : ℚ
  size : ℚ
deriving DecidableEq, Repr

/-- One entry of a trade event's `maker_orders` list.  Fields the exchange
may omit are `Option`s; `_handle_trade` substitutes the trade-level value
(via `dict.get` defaults) when they are missing. -/
structure MakerOrder where
  order_id : String
  asset_id : Option String
  price : Option ℚ
  matched_amount : Option ℚ
  size : Option ℚ
deriving DecidableEq, Repr

/-- A `trade` event from the USER channel, as read by
`UserChannelManager._handle_trade`. -/
structure TradeEvent where
  status : String
  asset_id : String
  price : ℚ
  size : ℚ
  taker_order_id : String
  maker_orders : List MakerOrder
deriving DecidableEq, Repr

/-- The user channel's mutable state relevant to fill emission: the tracked
order-id set (`UserChannelManager._tracked_order_ids`), modelled as a list
read up to membership. -/
structure ChannelState where
  tracked : List String
deriving DecidableEq, Repr

/-- `UserChannelManager._process_fill` (user_channel.py lines 289-331):
resolve the outcome from the asset id, returning no fill (and leaving the
tracked set untouched) on an unknown asset; otherwise discard the id from
the tracked set and emit exactly one fill. -/
def process_fill (cfg : Config) (st : ChannelState) (order_id asset_id : String)
    (price size : ℚ) : ChannelState × Option Fill :=
  if asset_id = cfg.token_id_yes then
    (⟨st.tracked.filter (fun x => x ≠ order_id)⟩,
      some ⟨order_id, Outcome.YES, price, size⟩)
  else if asset_id = cfg.token_id_no then
    (⟨st.tracked.filter (fun x => x ≠ order_id)⟩,
      some ⟨order_id, Outcome.NO, price, size⟩)
  else
    (st, none)

/-- One candidate order id inside `_handle_trade`: the membership test
`order_id in self._tracked_order_ids` followed by `_process_fill`
(emissions are accumulated to the right of the output list). -/
def fill_candidate (cfg : Config) (acc : ChannelState × List Fill)
    (order_id asset_id : String) (price size : ℚ) : ChannelState × List Fill :=
  if order_id ∈ acc.1.tracked then
    let r := process_fill cfg acc.1 order_id asset_id price size
    (r.1, acc.2 ++ r.2.toList)
  else acc

/-- `UserChannelManager._handle_trade` (user_channel.py lines 204-254):
ignore events whose status is not MATCHED/MINED/CONFIRMED or whose
trade-level price or size is non-positive; then process the taker id if
tracked, then each maker entry whose id is (still) tracked, a maker using
its own asset id, price, and `matched_amount` with trade-level fallbacks. -/
def handle_trade (cfg : Config) (st : ChannelState) (ev : TradeEvent) :
    ChannelState × List Fill :=
  if ev.status ≠ "MATCHED" ∧ ev.status ≠ "MINED" ∧ ev.status ≠ "CONFIRMED" then
    (st, [])
  else if ev.price ≤ 0 ∨ ev.size ≤ 0 then
    (st, [])
  else
    ev.maker_orders.foldl
      (fun acc m =>
        fill_candidate cfg acc m.order_id (m.asset_id.getD ev.asset_id)
          (m.price.getD ev.price) (m.matched_amount.getD (m.size.getD ev.size)))
      (fill_candidate cfg (st, []) ev.taker_order_id ev.asset_id ev.price ev.size)

/-- Process a stream of trade events in arrival order, concatenating the
emitted fills. -/
def run_trades (cfg : Config) (st : ChannelState) (evs : List TradeEvent) :
    ChannelState × List Fill :=
  evs.foldl
    (fun acc ev =>
      let r := handle_trade cfg acc.1 ev
      (r.1, acc.2 ++ r.2))
    (st, [])

/-! ### Helper lemmas: field projections of the ledger operations -/

namespace InventoryState

theorem record_fill_locked_profit (s : InventoryState) (o : Outcome) (sd : Side)
    (price size : ℚ) (now : ℕ) :
    (s.record_fill o sd price size now).locked_profit = s.locked_profit := by
  cases o <;> cases sd <;> simp only [record_fill] <;> split_ifs <;> rfl

theorem record_fill_locked_quantity (s : InventoryState) (o : Outcome) (sd : Side)
    (price size : ℚ) (now : ℕ) :
    (s.record_fill o sd price size now).locked_quantity = s.locked_quantity := by
  cases o <;> cases sd <;> simp only [record_fill] <;> split_ifs <;> rfl

theorem record_fill_completed_rounds (s : InventoryState) (o : Outcome) (sd : Side)
    (price size : ℚ) (now : ℕ) :
    (s.record_fill o sd price size now).completed_rounds = s.completed_rounds := by
  cases o <;> cases sd <;> simp only [record_fill] <;> split_ifs <;> rfl

theorem lock_profit_q_yes (s : InventoryState) (c : ℚ) :
    (s.lock_profit c).q_yes = s.q_yes := by
  simp only [lock_profit]; split_ifs <;> rfl

theorem lock_profit_c_yes (s : InventoryState) (c : ℚ) :
    (s.lock_profit c).c_yes = s.c_yes := by
  simp only [lock_profit]; split_ifs <;> rfl

theorem lock_profit_q_no (s : InventoryState) (c : ℚ) :
    (s.lock_profit c).q_no = s.q_no := by
  simp only [lock_profit]; split_ifs <;> rfl

theorem lock_profit_c_no (s : InventoryState) (c : ℚ) :
    (s.lock_profit c).c_no = s.c_no := by
  simp only [lock_profit]; split_ifs <;> rfl

end InventoryState

/-! ### C1: Scenario 1, the full box round -/

/-- C1.  Full box round (Scenario 1): with the default configuration
(profit margin 0.02, c_target 0.98, range [0.40, 0.60], trap size 10) and
an initially empty ledger, `compute_trap_price(0.50, 0.52) = 0.48` and
`compute_trap_price(0.52, 0.50) = 0.46`; after `record_fill(YES, BUY,
0.48, 10)` the YES VWAP is 0.48 and `compute_hedge_price(0.48) = 0.50`;
after the further `record_fill(NO, BUY, 0.50, 10)` and `lock_profit(0.98)`
the ledger shows `locked_profit = 10·(1 − 0.98) = 0.20` and
`completed_rounds = 1`. -/
theorem full_box_round_scenario :
    default_config.trap_order_size = 10 ∧
    default_config.c_target = 98/100 ∧
    default_config.compute_trap_price (50/100) (52/100) = some (48/100) ∧
    default_config.compute_trap_price (52/100) (50/100) = some (46/100) ∧
    (InventoryState.record_fill {} Outcome.YES Side.BUY (48/100) 10 0).mu_yes = 48/100 ∧
    default_config.compute_hedge_price (48/100) = 50/100 ∧
    ((((InventoryState.record_fill {} Outcome.YES Side.BUY (48/100) 10 0).record_fill
        Outcome.NO Side.BUY (50/100) 10 0).lock_profit (98/100)).locked_profit
      = 10 * (1 - 98/100) ∧
     (((InventoryState.record_fill {} Outcome.YES Side.BUY (48/100) 10 0).record_fill
        Outcome.NO Side.BUY (50/100) 10 0).lock_profit (98/100)).completed_rounds = 1) := by
  refine ⟨rfl, by norm_num [default_config], ?_, ?_, ?_, ?_, ?_, ?_⟩ <;>
    norm_num [default_config, Config.compute_trap_price, Config.compute_hedge_price,
      roundTick, round_eq, InventoryState.record_fill, InventoryState.lock_profit,
      InventoryState.combined_vwap, InventoryState.mu_yes, InventoryState.mu_no]

/-! ### C4: lock_profit is idempotent and monotonic -/

/-- C4.  `lock_profit` is idempotent — a second call on the result, with the
same `c_target` and no intervening fill, changes no field — and no ledger
operation (any `record_fill` or `lock_profit`) ever decreases
`locked_profit` or `completed_rounds`. -/
theorem lock_profit_idempotent_and_monotonic :
    ∀ s : InventoryState, ∀ c_target : ℚ,
      ((s.lock_profit c_target).lock_profit c_target = s.lock_profit c_target) ∧
      ∀ op : LedgerOp,
        s.locked_profit ≤ (applyOp s op).locked_profit ∧
        s.completed_rounds ≤ (applyOp s op).completed_rounds := by
  intro s c
  refine ⟨?_, ?_⟩
  · by_cases h1 : min s.q_yes s.q_no ≤ s.locked_quantity
    · simp [InventoryState.lock_profit, h1]
    · by_cases h2 : 1 - s.combined_vwap > 0
      · simp only [InventoryState.lock_profit, h1, h2, if_true, if_false, if_neg, if_pos]
        simp [InventoryState.lock_profit]
      · simp [InventoryState.lock_profit, h1, h2]
  · intro op
    cases op with
    | fill o sd price size now =>
        rw [applyOp, s.record_fill_locked_profit, s.record_fill_completed_rounds]
        exact ⟨le_refl _, le_refl _⟩
    | lock ct =>
        rw [applyOp]
        by_cases h1 : min s.q_yes s.q_no ≤ s.locked_quantity
        · simp [InventoryState.lock_profit, h1]
        · by_cases h2 : 1 - s.combined_vwap > 0
          · have hnew : 0 ≤ (min s.q_yes s.q_no - s.locked_quantity) * (1 - s.combined_vwap) := by
              have := not_le.mp h1
              nlinarith
            simp only [InventoryState.lock_profit, h1, h2, if_true, if_false, if_neg, if_pos]
            constructor
            · linarith
            · exact Nat.le_succ _
          · simp [InventoryState.lock_profit, h1, h2]

/-! ### C5: serialisation round-trip -/

/-- The state used to exhibit the round-trip defect: one completed round. -/
def roundtrip_state : InventoryState :=
  { q_yes := 10, c_yes := 48/10, q_no := 10, c_no := 5,
    locked_profit := 1/5, locked_quantity := 10, completed_rounds := 1,
    total_trades := 2, total_volume := 98/10, created_at := 3, updated_at := 7 }

/-- C5 counterexample.  `to_dict` writes no `completed_rounds` key and
`from_dict` never reads one, so a state with `completed_rounds = 1` does
not survive the round trip: the claim that the round trip preserves every
field including `completed_rounds` is false. -/
theorem roundtrip_drops_completed_rounds :
    InventoryState.from_dict roundtrip_state.to_dict 0 ≠ roundtrip_state ∧
    (InventoryState.from_dict roundtrip_state.to_dict 0).completed_rounds = 0 ∧
    roundtrip_state.completed_rounds = 1 := by
  refine ⟨fun h => ?_, rfl, rfl⟩
  have h0 := congrArg InventoryState.completed_rounds h
  simp [InventoryState.from_dict, InventoryState.to_dict, roundtrip_state] at h0

/-- C5 amended.  Serialising with `to_dict` and deserialising with
`from_dict` restores every field — `q_yes`, `c_yes`, `q_no`, `c_no`,
`locked_profit`, `locked_quantity`, `total_trades`, `total_volume` and both
timestamps — except `completed_rounds`, which is reset to 0 because it is
absent from the persisted dictionary. -/
theorem roundtrip_identity_except_completed_rounds :
    ∀ (s : InventoryState) (now : ℕ),
      InventoryState.from_dict s.to_dict now = { s with completed_rounds := 0 } := by
  intro s now
  rfl

/-! ### C2: the trap-price policy -/

theorem roundTick_lower (t : ℚ) (h : 1/100 < t) : 1/100 ≤ roundTick t := by
  unfold roundTick
  have h1 : (1 : ℤ) ≤ round (t * 100) := by
    rw [round_eq]
    have h2 : ⌊(3/2 : ℚ)⌋ ≤ ⌊t * 100 + 1/2⌋ := Int.floor_mono (by linarith)
    norm_num at h2
    exact h2
  have h3 : (1 : ℚ) ≤ ((round (t * 100) : ℤ) : ℚ) := by exact_mod_cast h1
  linarith

theorem roundTick_upper (t : ℚ) (h : t ≤ 99/100) : roundTick t ≤ 99/100 := by
  unfold roundTick
  have h1 : round (t * 100) ≤ (99 : ℤ) := by
    rw [round_eq]
    have h2 : ⌊t * 100 + 1/2⌋ ≤ ⌊(199/2 : ℚ)⌋ := Int.floor_mono (by linarith)
    norm_num at h2
    exact h2
  have h3 : ((round (t * 100) : ℤ) : ℚ) ≤ 99 := by exact_mod_cast h1
  linarith

/-- C2 amended.  `compute_trap_price` returns no quote exactly when either
ask is outside `[range_min, range_max]` or the candidate
`c_target − opposing_ask` is ≤ 0.01 or > 0.99; otherwise it returns the
candidate rounded to the 0.01 tick — so the returned price equals
`c_target − opposing_ask` modulo rounding and satisfies
`0.01 ≤ trap_price ≤ 0.99` (the lower bound is not strict: a candidate just
above 0.01 rounds down to exactly 0.01). -/
theorem compute_trap_price_spec (cfg : Config) (opposing_ask own_ask : ℚ) :
    ((own_ask < cfg.range_min ∨ own_ask > cfg.range_max ∨
        opposing_ask < cfg.range_min ∨ opposing_ask > cfg.range_max) →
      cfg.compute_trap_price opposing_ask own_ask = none) ∧
    ((cfg.c_target - opposing_ask ≤ 1/100 ∨ cfg.c_target - opposing_ask > 99/100) →
      cfg.compute_trap_price opposing_ask own_ask = none) ∧
    (¬ (own_ask < cfg.range_min ∨ own_ask > cfg.range_max ∨
        opposing_ask < cfg.range_min ∨ opposing_ask > cfg.range_max) →
      ¬ (cfg.c_target - opposing_ask ≤ 1/100 ∨ cfg.c_target - opposing_ask > 99/100) →
      cfg.compute_trap_price opposing_ask own_ask
          = some (roundTick (cfg.c_target - opposing_ask)) ∧
        1/100 ≤ roundTick (cfg.c_target - opposing_ask) ∧
        roundTick (cfg.c_target - opposing_ask) ≤ 99/100) := by
  refine ⟨?_, ?_, ?_⟩
  · intro h
    rw [Config.compute_trap_price, if_pos h]
  · intro h
    simp only [Config.compute_trap_price]
    split_ifs <;> simp_all
  · intro h1 h2
    push_neg at h2
    simp only [Config.compute_trap_price]
    rw [if_neg h1, if_neg (by push_neg; exact h2)]
    exact ⟨rfl, roundTick_lower _ h2.1, roundTick_upper _ h2.2⟩

/-- A legal configuration whose band reaches 0.97, exposing the rounding
boundary. -/
def wide_band_config : Config := { default_config with range_max := 97/100 }

/-- C2 counterexample.  With `c_target = 0.98`, `range = [0.40, 0.97]`,
`opposing_ask = 0.968` (in band) and `own_ask = 0.50`, the candidate
`0.98 − 0.968 = 0.012` is strictly above 0.01 — so a quote is produced —
yet it rounds down to exactly 0.01, refuting the claimed strict bound
`0.01 < trap_price` on the returned price. -/
theorem trap_price_boundary_counterexample :
    wide_band_config.compute_trap_price (121/125) (1/2) = some (1/100) ∧
    1/100 < wide_band_config.c_target - 121/125 ∧
    wide_band_config.c_target - 121/125 ≤ 99/100 ∧
    ¬ (1/100 < (1/100 : ℚ)) := by
  norm_num [wide_band_config, default_config, Config.compute_trap_price, roundTick, round_eq]

/-- C2 witness: the amended spec instantiated at the default configuration
with both asks at 0.50. -/
theorem compute_trap_price_spec_witness :
    default_config.compute_trap_price (1/2) (1/2)
        = some (roundTick (default_config.c_target - 1/2)) ∧
      1/100 ≤ roundTick (default_config.c_target - 1/2) ∧
      roundTick (default_config.c_target - 1/2) ≤ 99/100 :=
  (compute_trap_price_spec default_config (1/2) (1/2)).2.2
    (by norm_num [default_config]) (by norm_num [default_config])

/-! ### C6: unknown fills are discarded atomically -/

/-- C6.  If the order id matches none of the trap-YES, trap-NO and hedge
slots, `on_fill` returns with the whole engine state — inventory ledger,
order slots and intent map — unchanged; in particular `record_fill` is
never applied. -/
theorem unknown_fill_ignored (cfg : Config) (st : EngineState) (order_id : String)
    (outcome : Outcome) (price size : ℚ) (now : ℕ)
    (hy : slotMatches st.trap_order_yes order_id = false)
    (hn : slotMatches st.trap_order_no order_id = false)
    (hh : slotMatches st.hedge_order order_id = false) :
    on_fill cfg st order_id outcome price size now = st := by
  unfold on_fill classifyFill
  simp [hy, hn, hh]

/-- An engine state with no live orders. -/
def idle_engine : EngineState :=
  { mode := StrategyMode.OPEN, inventory := {}, trap_order_yes := none,
    trap_order_no := none, hedge_order := none, order_outcome := [] }

/-- C6 witness: a stale order id on an idle engine is discarded. -/
theorem unknown_fill_ignored_witness :
    slotMatches idle_engine.trap_order_yes "stale" = false ∧
    slotMatches idle_engine.trap_order_no "stale" = false ∧
    slotMatches idle_engine.hedge_order "stale" = false ∧
    on_fill default_config idle_engine "stale" Outcome.YES (1/2) 10 0 = idle_engine :=
  ⟨rfl, rfl, rfl,
    unknown_fill_ignored default_config idle_engine "stale" Outcome.YES (1/2) 10 0 rfl rfl rfl⟩

/-! ### C7: hedge sizing -/

/-- An inventory long 3 YES tokens: above the engine's hedge threshold but
below the hard-coded exchange minimum. -/
def small_long_inventory : InventoryState := { q_yes := 3 }

/-- C7 counterexample.  At `ΔQ = 3` the engine enters hedge mode (3 ≥ 2.5),
and the placed size is the hard-coded `MIN_POLYMARKET_SIZE = 5.0`, not
`max(|ΔQ|, min_order_size) = max(3, 1) = 3` as the claim (reading the
configured `min_order_size`, default 1) would have it. -/
theorem hedge_size_counterexample :
    step_decision small_long_inventory = StepAction.hedge Outcome.YES ∧
    hedge_qty small_long_inventory = 5 ∧
    max |small_long_inventory.delta_q| default_config.min_order_size = 3 ∧
    (5 : ℚ) ≠ 3 := by
  norm_num [step_decision, hedge_qty, small_long_inventory, InventoryState.delta_q,
    MIN_HEDGE_THRESHOLD, MIN_POLYMARKET_SIZE, default_config]

/-- C7 amended.  The trap threshold is the hard-coded 2.5 — half of the
hard-coded Polymarket minimum 5.0 — and whenever the engine's step decides
to hedge, the hedge size it computes is `max(|ΔQ|, 5.0)`; the configured
`min_order_size` plays no role. -/
theorem hedge_size_uses_hardcoded_minimum :
    MIN_HEDGE_THRESHOLD = MIN_POLYMARKET_SIZE / 2 ∧
    ∀ (inv : InventoryState) (long_side : Outcome),
      step_decision inv = StepAction.hedge long_side →
      hedge_qty inv = max |inv.delta_q| MIN_POLYMARKET_SIZE := by
  constructor
  · norm_num [MIN_HEDGE_THRESHOLD, MIN_POLYMARKET_SIZE]
  · intro inv long_side _h
    unfold hedge_qty
    by_cases hc : |inv.delta_q| < MIN_POLYMARKET_SIZE
    · rw [if_pos hc, max_eq_right (le_of_lt hc)]
    · rw [if_neg hc, max_eq_left (not_lt.mp hc)]

/-- An inventory long 7 YES tokens. -/
def long_inventory : InventoryState := { q_yes := 7 }

/-- C7 witness: at `ΔQ = 7` the engine hedges and the amended formula gives
the size. -/
theorem hedge_size_uses_hardcoded_minimum_witness :
    step_decision long_inventory = StepAction.hedge Outcome.YES ∧
    hedge_qty long_inventory = max |long_inventory.delta_q| MIN_POLYMARKET_SIZE :=
  ⟨by norm_num [step_decision, long_inventory, InventoryState.delta_q, MIN_HEDGE_THRESHOLD],
   hedge_size_uses_hardcoded_minimum.2 long_inventory Outcome.YES
     (by norm_num [step_decision, long_inventory, InventoryState.delta_q, MIN_HEDGE_THRESHOLD])⟩

/-! ### C8: the shutdown flatten writes the ledger directly -/

/-- An unhedged inventory: 10 YES at cost 4.8, no NO. -/
def unhedged_inventory : InventoryState := { q_yes := 10, c_yes := 24/5 }

/-- C8 counterexample.  `flatten_position` contains no call to
`record_fill` or `lock_profit` (see `flatten_inventory`), yet on a
successful market sell it changes the ledger: here `q_yes` drops from 10
to 0 — refuting the claim that the ledger fields are identical before and
after every engine operation other than through those two methods. -/
theorem flatten_mutates_ledger_counterexample :
    (flatten_inventory unhedged_inventory true).q_yes ≠ unhedged_inventory.q_yes ∧
    (flatten_inventory unhedged_inventory true).q_yes = 0 ∧
    unhedged_inventory.q_yes = 10 := by
  norm_num [flatten_inventory, unhedged_inventory, InventoryState.delta_q]

/-- C8 amended.  The ledger fields are mutated only by `record_fill`,
`lock_profit`, and the shutdown flatten; the flatten's own effect is
exactly: nothing when the sell fails or `|ΔQ| < 0.01`, and otherwise a
direct reduction of the long side's quantity by `|ΔQ|`, leaving both cost
bases, the opposite quantity, and all locked-profit counters unchanged. -/
theorem flatten_mutates_only_long_quantity (inv : InventoryState) (sell_succeeds : Bool) :
    ((flatten_inventory inv sell_succeeds).c_yes = inv.c_yes ∧
     (flatten_inventory inv sell_succeeds).c_no = inv.c_no ∧
     (flatten_inventory inv sell_succeeds).locked_profit = inv.locked_profit ∧
     (flatten_inventory inv sell_succeeds).locked_quantity = inv.locked_quantity ∧
     (flatten_inventory inv sell_succeeds).completed_rounds = inv.completed_rounds ∧
     (flatten_inventory inv sell_succeeds).total_trades = inv.total_trades ∧
     (flatten_inventory inv sell_succeeds).total_volume = inv.total_volume) ∧
    (flatten_inventory inv false = inv) ∧
    (|inv.delta_q| < 1/100 → flatten_inventory inv sell_succeeds = inv) ∧
    (1/100 ≤ |inv.delta_q| → 0 < inv.delta_q →
      (flatten_inventory inv true).q_yes = inv.q_yes - inv.delta_q ∧
      (flatten_inventory inv true).q_no = inv.q_no) ∧
    (1/100 ≤ |inv.delta_q| → inv.delta_q ≤ 0 →
      (flatten_inventory inv true).q_no = inv.q_no - |inv.delta_q| ∧
      (flatten_inventory inv true).q_yes = inv.q_yes) := by
  refine ⟨?_, ?_, ?_, ?_, ?_⟩
  · unfold flatten_inventory; split_ifs <;> simp
  · unfold flatten_inventory; split_ifs <;> simp_all
  · intro h; rw [flatten_inventory, if_pos h]
  · intro h1 h2
    rw [flatten_inventory, if_neg (not_lt.mpr h1), if_pos h2]
    simp
  · intro h1 h2
    rw [flatten_inventory, if_neg (not_lt.mpr h1), if_neg (not_lt.mpr h2)]
    simp

/-- C8 witness: the amended characterisation applied to the concrete
unhedged inventory with a successful sell. -/
theorem flatten_mutates_only_long_quantity_witness :
    (flatten_inventory unhedged_inventory true).c_yes = unhedged_inventory.c_yes ∧
    (flatten_inventory unhedged_inventory true).q_yes
        = unhedged_inventory.q_yes - unhedged_inventory.delta_q ∧
    (flatten_inventory unhedged_inventory true).q_no = unhedged_inventory.q_no :=
  ⟨(flatten_mutates_only_long_quantity unhedged_inventory true).1.1,
   ((flatten_mutates_only_long_quantity unhedged_inventory true).2.2.2.1
      (by norm_num [unhedged_inventory, InventoryState.delta_q])
      (by norm_num [unhedged_inventory, InventoryState.delta_q])).1,
   ((flatten_mutates_only_long_quantity unhedged_inventory true).2.2.2.1
      (by norm_num [unhedged_inventory, InventoryState.delta_q])
      (by norm_num [unhedged_inventory, InventoryState.delta_q])).2⟩

/-! ### C10: order-book accessors on possibly empty books -/

theorem foldl_max_bound (p : ℚ) (ps : List ℚ) :
    p ≤ ps.foldl max p ∧ ∀ x ∈ ps, x ≤ ps.foldl max p := by
  induction ps generalizing p with
  | nil => exact ⟨le_refl p, by simp⟩
  | cons q qs ih =>
      simp only [List.foldl_cons]
      obtain ⟨h1, h2⟩ := ih (max p q)
      refine ⟨le_trans (le_max_left p q) h1, ?_⟩
      intro x hx
      rcases List.mem_cons.mp hx with rfl | hx
      · exact le_trans (le_max_right p x) h1
      · exact h2 x hx

theorem foldl_max_mem (p : ℚ) (ps : List ℚ) :
    ps.foldl max p = p ∨ ps.foldl max p ∈ ps := by
  induction ps generalizing p with
  | nil => exact Or.inl rfl
  | cons q qs ih =>
      simp only [List.foldl_cons]
      rcases ih (max p q) with h | h
      · rcases max_choice p q with hm | hm
        · exact Or.inl (h.trans hm)
        · exact Or.inr (by rw [h, hm]; exact List.mem_cons_self q qs)
      · exact Or.inr (List.mem_cons_of_mem q h)

theorem foldl_min_bound (p : ℚ) (ps : List ℚ) :
    ps.foldl min p ≤ p ∧ ∀ x ∈ ps, ps.foldl min p ≤ x := by
  induction ps generalizing p with
  | nil => exact ⟨le_refl p, by simp⟩
  | cons q qs ih =>
      simp only [List.foldl_cons]
      obtain ⟨h1, h2⟩ := ih (min p q)
      refine ⟨le_trans h1 (min_le_left p q), ?_⟩
      intro x hx
      rcases List.mem_cons.mp hx with rfl | hx
      · exact le_trans h1 (min_le_right p x)
      · exact h2 x hx

theorem foldl_min_mem (p : ℚ) (ps : List ℚ) :
    ps.foldl min p = p ∨ ps.foldl min p ∈ ps := by
  induction ps generalizing p with
  | nil => exact Or.inl rfl
  | cons q qs ih =>
      simp only [List.foldl_cons]
      rcases ih (min p q) with h | h
      · rcases min_choice p q with hm | hm
        · exact Or.inl (h.trans hm)
        · exact Or.inr (by rw [h, hm]; exact List.mem_cons_self q qs)
      · exact Or.inr (List.mem_cons_of_mem q h)

/-- C10.  `best_bid` is `None` exactly on an empty bid list and otherwise
the maximum bid price; `best_ask` is `None` exactly on an empty ask list
and otherwise the minimum ask price; `mid_price` and `spread` are `None`
exactly when either side is empty.  All four accessors are total. -/
theorem orderbook_accessors_safe (b : OrderBook) :
    (b.best_bid = none ↔ b.bids = []) ∧
    (∀ p, b.best_bid = some p → p ∈ b.bids.map OrderBookLevel.price ∧
        ∀ l ∈ b.bids, l.price ≤ p) ∧
    (b.best_ask = none ↔ b.asks = []) ∧
    (∀ p, b.best_ask = some p → p ∈ b.asks.map OrderBookLevel.price ∧
        ∀ l ∈ b.asks, p ≤ l.price) ∧
    (b.mid_price = none ↔ (b.bids = [] ∨ b.asks = [])) ∧
    (b.spread = none ↔ (b.bids = [] ∨ b.asks = [])) := by
  refine ⟨?_, ?_, ?_, ?_, ?_, ?_⟩
  · cases hb : b.bids <;> simp [OrderBook.best_bid, hb]
  · intro p hp
    cases hb : b.bids with
    | nil => simp [OrderBook.best_bid, hb] at hp
    | cons l ls =>
        simp only [OrderBook.best_bid, hb, List.map_cons, Option.some_inj] at hp
        subst hp
        constructor
        · rcases foldl_max_mem l.price (ls.map OrderBookLevel.price) with h | h
          · rw [h]; simp
          · simp only [List.map_cons, List.mem_cons]
            exact Or.inr h
        · intro l' hl'
          obtain ⟨h1, h2⟩ := foldl_max_bound l.price (ls.map OrderBookLevel.price)
          rcases List.mem_cons.mp hl' with rfl | hl'
          · exact h1
          · exact h2 l'.price (List.mem_map_of_mem _ hl')
  · cases ha : b.asks <;> simp [OrderBook.best_ask, ha]
  · intro p hp
    cases ha : b.asks with
    | nil => simp [OrderBook.best_ask, ha] at hp
    | cons l ls =>
        simp only [OrderBook.best_ask, ha, List.map_cons, Option.some_inj] at hp
        subst hp
        constructor
        · rcases foldl_min_mem l.price (ls.map OrderBookLevel.price) with h | h
          · rw [h]; simp
          · simp only [List.map_cons, List.mem_cons]
            exact Or.inr h
        · intro l' hl'
          obtain ⟨h1, h2⟩ := foldl_min_bound l.price (ls.map OrderBookLevel.price)
          rcases List.mem_cons.mp hl' with rfl | hl'
          · exact h1
          · exact h2 l'.price (List.mem_map_of_mem _ hl')
  · cases hb : b.bids <;> cases ha : b.asks <;>
      simp [OrderBook.mid_price, OrderBook.best_bid, OrderBook.best_ask, hb, ha]
  · cases hb : b.bids <;> cases ha : b.asks <;>
      simp [OrderBook.spread, OrderBook.best_bid, OrderBook.best_ask, hb, ha]

/-- A one-level book used as the C10 witness. -/
def sample_book : OrderBook :=
  { asset_id := "tok", bids := [⟨2/5, 10⟩], asks := [⟨1/2, 3⟩] }

/-- C10 witness: the accessor characterisation applied to a concrete
one-level book. -/
theorem orderbook_accessors_safe_witness :
    (2/5 : ℚ) ∈ sample_book.bids.map OrderBookLevel.price ∧
    (∀ l ∈ sample_book.bids, l.price ≤ (2/5 : ℚ)) ∧
    (1/2 : ℚ) ∈ sample_book.asks.map OrderBookLevel.price ∧
    (∀ l ∈ sample_book.asks, (1/2 : ℚ) ≤ l.price) :=
  ⟨((orderbook_accessors_safe sample_book).2.1 (2/5) rfl).1,
   ((orderbook_accessors_safe sample_book).2.1 (2/5) rfl).2,
   ((orderbook_accessors_safe sample_book).2.2.2.1 (1/2) rfl).1,
   ((orderbook_accessors_safe sample_book).2.2.2.1 (1/2) rfl).2⟩

/-! ### C3: reachable-state invariants of the ledger -/

theorem record_fill_yes_buy (s : InventoryState) (p z : ℚ) (n : ℕ) :
    s.record_fill Outcome.YES Side.BUY p z n =
      { s with
        c_yes := s.c_yes + p * z
        q_yes := s.q_yes + z
        total_trades := s.total_trades + 1
        total_volume := s.total_volume + p * z
        updated_at := n } := rfl

theorem record_fill_no_buy (s : InventoryState) (p z : ℚ) (n : ℕ) :
    s.record_fill Outcome.NO Side.BUY p z n =
      { s with
        c_no := s.c_no + p * z
        q_no := s.q_no + z
        total_trades := s.total_trades + 1
        total_volume := s.total_volume + p * z
        updated_at := n } := rfl

theorem record_fill_yes_sell (s : InventoryState) (p z : ℚ) (n : ℕ) :
    s.record_fill Outcome.YES Side.SELL p z n =
      if s.q_yes > 0 then
        { s with
          c_yes := s.c_yes - s.c_yes / s.q_yes * min z s.q_yes
          q_yes := max 0 (s.q_yes - z)
          total_trades := s.total_trades + 1
          total_volume := s.total_volume + p * z
          updated_at := n }
      else
        { s with
          total_trades := s.total_trades + 1
          total_volume := s.total_volume + p * z
          updated_at := n } := by
  by_cases h : s.q_yes > 0 <;> simp only [InventoryState.record_fill, h, if_pos, if_neg,
    if_true, if_false, not_false_iff, not_true]

theorem record_fill_no_sell (s : InventoryState) (p z : ℚ) (n : ℕ) :
    s.record_fill Outcome.NO Side.SELL p z n =
      if s.q_no > 0 then
        { s with
          c_no := s.c_no - s.c_no / s.q_no * min z s.q_no
          q_no := max 0 (s.q_no - z)
          total_trades := s.total_trades + 1
          total_volume := s.total_volume + p * z
          updated_at := n }
      else
        { s with
          total_trades := s.total_trades + 1
          total_volume := s.total_volume + p * z
          updated_at := n } := by
  by_cases h : s.q_no > 0 <;> simp only [InventoryState.record_fill, h, if_pos, if_neg,
    if_true, if_false, not_false_iff, not_true]

/-- After a SELL on a positive position, the new cost basis is non-negative
and vanishes exactly when the whole position is sold. -/
theorem sell_side_accounting (q c z : ℚ) (hq : 0 < q) (hc : 0 ≤ c) :
    0 ≤ c - c / q * min z q ∧ (max 0 (q - z) = 0 → c - c / q * min z q = 0) := by
  constructor
  · have h1 : c / q * min z q ≤ c / q * q :=
      mul_le_mul_of_nonneg_left (min_le_right z q) (div_nonneg hc (le_of_lt hq))
    rw [div_mul_cancel₀ c (ne_of_gt hq)] at h1
    linarith
  · intro h0
    have hle : q - z ≤ 0 := by
      by_contra hlt
      push_neg at hlt
      rw [max_eq_right (le_of_lt hlt)] at h0
      linarith
    rw [min_eq_right (by linarith : q ≤ z), div_mul_cancel₀ c (ne_of_gt hq)]
    ring

theorem record_fill_preserves_LedgerInv (s : InventoryState) (o : Outcome) (sd : Side)
    (price size : ℚ) (now : ℕ) (hp : 0 ≤ price) (hz : 0 ≤ size) (h : LedgerInv s) :
    LedgerInv (s.record_fill o sd price size now) := by
  obtain ⟨hqy, hcy, hqn, hcn, hzy, hzn⟩ := h
  cases o <;> cases sd
  · rw [record_fill_yes_buy]
    unfold LedgerInv
    dsimp only
    refine ⟨by linarith, by nlinarith, hqn, hcn, ?_, hzn⟩
    intro h0
    have hz0 : size = 0 := by linarith
    have hq0 : s.q_yes = 0 := by linarith
    rw [hzy hq0, hz0, mul_zero, add_zero]
  · rw [record_fill_yes_sell]
    by_cases hq : s.q_yes > 0
    · rw [if_pos hq]
      unfold LedgerInv
      dsimp only
      obtain ⟨h1, h2⟩ := sell_side_accounting s.q_yes s.c_yes size hq hcy
      exact ⟨le_max_left _ _, h1, hqn, hcn, h2, hzn⟩
    · rw [if_neg hq]
      exact ⟨hqy, hcy, hqn, hcn, hzy, hzn⟩
  · rw [record_fill_no_buy]
    unfold LedgerInv
    dsimp only
    refine ⟨hqy, hcy, by linarith, by nlinarith, hzy, ?_⟩
    intro h0
    have hz0 : size = 0 := by linarith
    have hq0 : s.q_no = 0 := by linarith
    rw [hzn hq0, hz0, mul_zero, add_zero]
  · rw [record_fill_no_sell]
    by_cases hq : s.q_no > 0
    · rw [if_pos hq]
      unfold LedgerInv
      dsimp only
      obtain ⟨h1, h2⟩ := sell_side_accounting s.q_no s.c_no size hq hcn
      exact ⟨hqy, hcy, le_max_left _ _, h1, hzy, h2⟩
    · rw [if_neg hq]
      exact ⟨hqy, hcy, hqn, hcn, hzy, hzn⟩

theorem lock_profit_preserves_LedgerInv (s : InventoryState) (c : ℚ) (h : LedgerInv s) :
    LedgerInv (s.lock_profit c) := by
  unfold LedgerInv at *
  rw [s.lock_profit_q_yes, s.lock_profit_c_yes, s.lock_profit_q_no, s.lock_profit_c_no]
  exact h

theorem record_fill_buy_preserves_LockedInv (s : InventoryState) (o : Outcome)
    (p z : ℚ) (n : ℕ) (hz : 0 ≤ z) (h : LockedInv s) :
    LockedInv (s.record_fill o Side.BUY p z n) := by
  unfold LockedInv at *
  cases o
  · rw [record_fill_yes_buy]
    dsimp only
    exact le_trans h (min_le_min (by linarith) (le_refl _))
  · rw [record_fill_no_buy]
    dsimp only
    exact le_trans h (min_le_min (le_refl _) (by linarith))

theorem record_fill_buy_locked_quantity (s : InventoryState) (o : Outcome)
    (p z : ℚ) (n : ℕ) :
    (s.record_fill o Side.BUY p z n).locked_quantity = s.locked_quantity :=
  s.record_fill_locked_quantity o Side.BUY p z n

theorem lock_profit_preserves_LockedInv (s : InventoryState) (c : ℚ) (h : LockedInv s) :
    LockedInv (s.lock_profit c) := by
  unfold InventoryState.lock_profit
  split_ifs with h1 h2
  · exact h
  · unfold LockedInv
    exact le_refl _
  · exact h

theorem applyOps_LedgerInv (ops : List LedgerOp) :
    ∀ s : InventoryState, LedgerInv s → (∀ op ∈ ops, op.legal) →
      LedgerInv (applyOps s ops) := by
  induction ops with
  | nil => intro s h _; exact h
  | cons op rest ih =>
      intro s h hleg
      rw [applyOps, List.foldl_cons]
      refine ih (applyOp s op) ?_ (fun o ho => hleg o (List.mem_cons_of_mem _ ho))
      cases op with
      | fill o sd p z n =>
          obtain ⟨hp, hz⟩ := hleg _ (List.mem_cons_self _ _)
          exact record_fill_preserves_LedgerInv s o sd p z n hp hz h
      | lock c => exact lock_profit_preserves_LedgerInv s c h

theorem applyOps_LockedInv (ops : List LedgerOp) :
    ∀ s : InventoryState, LockedInv s → (∀ op ∈ ops, op.legal) →
      (∀ op ∈ ops, op.notSell) → LockedInv (applyOps s ops) := by
  induction ops with
  | nil => intro s h _ _; exact h
  | cons op rest ih =>
      intro s h hleg hns
      rw [applyOps, List.foldl_cons]
      refine ih (applyOp s op) ?_ (fun o ho => hleg o (List.mem_cons_of_mem _ ho))
        (fun o ho => hns o (List.mem_cons_of_mem _ ho))
      cases op with
      | fill o sd p z n =>
          obtain ⟨hp, hz⟩ := hleg _ (List.mem_cons_self _ _)
          have hside := hns _ (List.mem_cons_self _ _)
          cases sd with
          | BUY => exact record_fill_buy_preserves_LockedInv s o p z n hz h
          | SELL => exact absurd rfl hside
      | lock c => exact lock_profit_preserves_LockedInv s c h

/-- C3 amended.  Every state reachable from the empty ledger by legal
`record_fill` calls (BUY or SELL, non-negative price and size) and
`lock_profit` calls satisfies `q_i ≥ 0`, `c_i ≥ 0`, and `q_i = 0 ⇒ c_i = 0`
on both sides; and if additionally no SELL fill occurs, it also satisfies
`locked_quantity ≤ min(q_yes, q_no)`.  (A SELL fill can break the latter
bound — see the counterexample — because `record_fill` never lowers
`locked_quantity`.) -/
theorem ledger_reachable_invariants (ops : List LedgerOp)
    (hleg : ∀ op ∈ ops, op.legal) :
    LedgerInv (applyOps {} ops) ∧
    ((∀ op ∈ ops, op.notSell) → LockedInv (applyOps {} ops)) := by
  constructor
  · refine applyOps_LedgerInv ops {} ?_ hleg
    exact ⟨le_refl 0, le_refl 0, le_refl 0, le_refl 0, fun _ => rfl, fun _ => rfl⟩
  · intro hns
    refine applyOps_LockedInv ops {} ?_ hleg hns
    unfold LockedInv
    norm_num

/-- A legal operation sequence that buys 10/10, locks, then sells the whole
YES side. -/
def sell_after_lock_ops : List LedgerOp :=
  [LedgerOp.fill Outcome.YES Side.BUY (2/5) 10 0,
   LedgerOp.fill Outcome.NO Side.BUY (2/5) 10 0,
   LedgerOp.lock (49/50),
   LedgerOp.fill Outcome.YES Side.SELL (1/2) 10 0]

/-- C3 counterexample.  After buying 10 YES and 10 NO at 0.40 each, locking
(`locked_quantity = 10`), and selling all 10 YES, the reachable state has
`locked_quantity = 10` but `min(q_yes, q_no) = 0`: the claimed invariant
`locked_quantity ≤ min(q_yes, q_no)` does not hold in every reachable
state. -/
theorem locked_quantity_bound_counterexample :
    (∀ op ∈ sell_after_lock_ops, op.legal) ∧
    (applyOps {} sell_after_lock_ops).locked_quantity = 10 ∧
    min (applyOps {} sell_after_lock_ops).q_yes (applyOps {} sell_after_lock_ops).q_no = 0 ∧
    ¬ LockedInv (applyOps {} sell_after_lock_ops) := by
  have hstate : applyOps {} sell_after_lock_ops =
      { q_yes := 0, c_yes := 0, q_no := 10, c_no := 4,
        locked_profit := 2, locked_quantity := 10, completed_rounds := 1,
        total_trades := 3, total_volume := 13, created_at := 0, updated_at := 0 } := by
    norm_num [sell_after_lock_ops, applyOps, applyOp,
      InventoryState.record_fill, InventoryState.lock_profit,
      InventoryState.combined_vwap, InventoryState.mu_yes, InventoryState.mu_no]
  refine ⟨?_, ?_, ?_, ?_⟩
  · intro op hop
    fin_cases hop <;> first
      | exact trivial
      | exact ⟨by norm_num, by norm_num⟩
  · rw [hstate]
  · rw [hstate]; norm_num
  · rw [hstate]
    unfold LockedInv
    norm_num

/-- A legal, SELL-free operation sequence. -/
def buy_only_ops : List LedgerOp :=
  [LedgerOp.fill Outcome.YES Side.BUY (1/2) 10 0,
   LedgerOp.fill Outcome.NO Side.BUY (2/5) 10 0,
   LedgerOp.lock (49/50)]

/-- C3 witness: the amended invariants instantiated on a concrete legal,
SELL-free sequence. -/
theorem ledger_reachable_invariants_witness :
    (∀ op ∈ buy_only_ops, op.legal) ∧
    (∀ op ∈ buy_only_ops, op.notSell) ∧
    LedgerInv (applyOps {} buy_only_ops) ∧
    LockedInv (applyOps {} buy_only_ops) := by
  have hleg : ∀ op ∈ buy_only_ops, op.legal := by
    intro op hop
    fin_cases hop
    · exact ⟨by norm_num, by norm_num⟩
    · exact ⟨by norm_num, by norm_num⟩
    · exact trivial
  have hns : ∀ op ∈ buy_only_ops, op.notSell := by
    intro op hop
    fin_cases hop
    · exact fun h => Side.noConfusion h
    · exact fun h => Side.noConfusion h
    · exact trivial
  exact ⟨hleg, hns, (ledger_reachable_invariants buy_only_ops hleg).1,
    (ledger_reachable_invariants buy_only_ops hleg).2 hns⟩

/-! ### C9: at most one fill per tracked order id -/

/-- Invariant carried across candidate processing inside one trade event:
the tracked set only shrinks relative to the event's entry state `st₀`, the
emitted ids are pairwise distinct, and each emitted id was tracked at entry
and is no longer tracked. -/
def EmitInv (st₀ : ChannelState) (acc : ChannelState × List Fill) : Prop :=
  (∀ x ∈ acc.1.tracked, x ∈ st₀.tracked) ∧
  (acc.2.map Fill.order_id).Nodup ∧
  (∀ f ∈ acc.2, f.order_id ∈ st₀.tracked ∧ f.order_id ∉ acc.1.tracked)

theorem process_fill_cases (cfg : Config) (st : ChannelState) (oid a : String)
    (p z : ℚ) :
    process_fill cfg st oid a p z = (st, none) ∨
    ∃ f : Fill, process_fill cfg st oid a p z =
        (⟨st.tracked.filter (fun x => x ≠ oid)⟩, some f) ∧ f.order_id = oid := by
  unfold process_fill
  split_ifs with h1 h2
  · exact Or.inr ⟨_, rfl, rfl⟩
  · exact Or.inr ⟨_, rfl, rfl⟩
  · exact Or.inl rfl

theorem fill_candidate_preserves (cfg : Config) (st₀ : ChannelState)
    (acc : ChannelState × List Fill) (oid a : String) (p z : ℚ)
    (h : EmitInv st₀ acc) : EmitInv st₀ (fill_candidate cfg acc oid a p z) := by
  obtain ⟨hsub, hnd, hout⟩ := h
  unfold fill_candidate
  by_cases hm : oid ∈ acc.1.tracked
  · rw [if_pos hm]
    rcases process_fill_cases cfg acc.1 oid a p z with hpf | ⟨f, hpf, hfid⟩
    · rw [hpf]
      exact ⟨hsub, by simpa using hnd, by simpa using hout⟩
    · rw [hpf]
      dsimp only [Option.toList]
      refine ⟨?_, ?_, ?_⟩
      · intro x hx
        exact hsub x (List.mem_of_mem_filter hx)
      · rw [List.map_append, List.map_cons, List.map_nil, List.nodup_append]
        refine ⟨hnd, List.nodup_singleton _, ?_⟩
        intro x hx hx'
        have hxo : x = oid := by
          rw [hfid] at hx'
          simpa using hx'
        obtain ⟨g, hg, hgid⟩ := List.mem_map.mp hx
        have := (hout g hg).2
        rw [hgid, hxo] at this
        exact this hm
      · intro g hg
        rcases List.mem_append.mp hg with hg | hg
        · refine ⟨(hout g hg).1, fun hc => (hout g hg).2 (List.mem_of_mem_filter hc)⟩
        · have hgf : g = f := by simpa using hg
          subst hgf
          rw [hfid]
          refine ⟨hsub oid hm, fun hc => ?_⟩
          have := List.mem_filter.mp hc
          simp at this
  · rw [if_neg hm]
    exact ⟨hsub, hnd, hout⟩

theorem foldl_fill_candidate_preserves (cfg : Config) (st₀ : ChannelState)
    (ev : TradeEvent) (ms : List MakerOrder) :
    ∀ acc : ChannelState × List Fill, EmitInv st₀ acc →
      EmitInv st₀ (ms.foldl
        (fun acc m =>
          fill_candidate cfg acc m.order_id (m.asset_id.getD ev.asset_id)
            (m.price.getD ev.price) (m.matched_amount.getD (m.size.getD ev.size)))
        acc) := by
  induction ms with
  | nil => intro acc h; exact h
  | cons m ms ih =>
      intro acc h
      rw [List.foldl_cons]
      exact ih _ (fill_candidate_preserves cfg st₀ acc m.order_id _ _ _ h)

theorem handle_trade_spec (cfg : Config) (st : ChannelState) (ev : TradeEvent) :
    EmitInv st (handle_trade cfg st ev) := by
  have hbase : EmitInv st (st, ([] : List Fill)) :=
    ⟨fun x hx => hx, List.nodup_nil, fun f hf => absurd hf (List.not_mem_nil f)⟩
  unfold handle_trade
  split_ifs with h1 h2
  · exact hbase
  · exact hbase
  · exact foldl_fill_candidate_preserves cfg st ev ev.maker_orders _
      (fill_candidate_preserves cfg st (st, []) ev.taker_order_id _ _ _ hbase)

/-- C9.  Starting from any tracked set and processing any sequence of
trade events (MATCHED, MINED or CONFIRMED, with the id appearing as taker
or among the maker orders), each order id is emitted to the engine
callback at most once — once emitted, the id is removed from the tracked
set, and since no event re-tracks an id, no later event emits it again. -/
theorem fills_at_most_once (cfg : Config) (st : ChannelState)
    (evs : List TradeEvent) :
    ((run_trades cfg st evs).2.map Fill.order_id).Nodup ∧
    ∀ f ∈ (run_trades cfg st evs).2,
      f.order_id ∉ (run_trades cfg st evs).1.tracked := by
  suffices h : ∀ acc : ChannelState × List Fill,
      (acc.2.map Fill.order_id).Nodup →
      (∀ f ∈ acc.2, f.order_id ∉ acc.1.tracked) →
      ((evs.foldl (fun acc ev =>
          ((handle_trade cfg acc.1 ev).1, acc.2 ++ (handle_trade cfg acc.1 ev).2)) acc).2.map
        Fill.order_id).Nodup ∧
      ∀ f ∈ (evs.foldl (fun acc ev =>
          ((handle_trade cfg acc.1 ev).1, acc.2 ++ (handle_trade cfg acc.1 ev).2)) acc).2,
        f.order_id ∉ (evs.foldl (fun acc ev =>
          ((handle_trade cfg acc.1 ev).1, acc.2 ++ (handle_trade cfg acc.1 ev).2)) acc).1.tracked by
    have h0 := h (st, []) List.nodup_nil (fun f hf => absurd hf (List.not_mem_nil f))
    unfold run_trades
    exact h0
  induction evs with
  | nil => intro acc h1 h2; exact ⟨h1, h2⟩
  | cons ev evs ih =>
      intro acc h1 h2
      rw [List.foldl_cons]
      obtain ⟨hsub, hnd, hout⟩ := handle_trade_spec cfg acc.1 ev
      refine ih _ ?_ ?_
      · rw [List.map_append, List.nodup_append]
        refine ⟨h1, hnd, ?_⟩
        intro x hx hx'
        obtain ⟨g, hg, hgid⟩ := List.mem_map.mp hx
        obtain ⟨g', hg', hgid'⟩ := List.mem_map.mp hx'
        have hxin : x ∈ acc.1.tracked := by
          rw [← hgid']
          exact (hout g' hg').1
        rw [← hgid] at hxin
        exact (h2 g hg) (hgid ▸ hxin)
      · intro f hf
        rcases List.mem_append.mp hf with hf | hf
        · exact fun hc => (h2 f hf) (hsub _ hc)
        · exact (hout f hf).2

/-- A configuration watching tokens "Y" and "N". -/
def watch_config : Config :=
  { default_config with token_id_yes := "Y", token_id_no := "N" }

/-- A matched taker trade for tracked order "a" on asset "Y". -/
def sample_trade : TradeEvent :=
  { status := "MATCHED", asset_id := "Y", price := 1/2, size := 10,
    taker_order_id := "a", maker_orders := [] }

theorem sample_trade_run :
    run_trades watch_config ⟨["a"]⟩ [sample_trade] =
      (⟨[]⟩, [⟨"a", Outcome.YES, 1/2, 10⟩]) := by
  norm_num [run_trades, handle_trade, fill_candidate, process_fill,
    sample_trade, watch_config, default_config]

/-- C9 witness: from tracked set `{"a"}`, the matched trade emits exactly
one fill for "a", whose id is afterwards no longer tracked. -/
theorem fills_at_most_once_witness :
    ((run_trades watch_config ⟨["a"]⟩ [sample_trade]).2.map Fill.order_id).Nodup ∧
    (⟨"a", Outcome.YES, 1/2, 10⟩ : Fill) ∈ (run_trades watch_config ⟨["a"]⟩ [sample_trade]).2 ∧
    "a" ∉ (run_trades watch_config ⟨["a"]⟩ [sample_trade]).1.tracked :=
  ⟨(fills_at_most_once watch_config ⟨["a"]⟩ [sample_trade]).1,
   by rw [sample_trade_run]; exact List.mem_singleton.mpr rfl,
   (fills_at_most_once watch_config ⟨["a"]⟩ [sample_trade]).2
     ⟨"a", Outcome.YES, 1/2, 10⟩ (by rw [sample_trade_run]; exact List.mem_singleton.mpr rfl)⟩

end VolaScalping
